import Mathlib

/-!
Shallow embedding of the `StorageReader` component of the IOTForestCam
firmware (src/include/StorageReader.h, src/src/StorageReader.cpp).

Modelling conventions:
  * Machine integers (`uint8_t`, `uint16_t`, `uint32_t`, `size_t`) are
    modelled as `Nat`, with wrap-around written explicitly where the
    source can reach it: the scan's 32-bit block-count expression wraps
    `% 2^32` (see `mkInfo` and `UINT32_MOD`) because FAT32 admits file
    sizes up to `2^32 - 1`, and the checksum's `% 255` arithmetic is
    written as in the source.  The remaining quantities (catalogue
    indices, cursor byte offsets below `totalBlocks * BLOCK_SIZE`,
    16-bit checksum sums below 255) stay below their wrap points on
    every path the source exercises.
  * Arduino `String` values (file names) are modelled as `List Char`, and
    the member functions used by the source (`toLowerCase`, `endsWith`,
    indexing `name[0]`) are modelled character-by-character below.
  * A file payload is a `List Nat` of byte values.
  * The SD filesystem is modelled as an association list from full paths
    to payloads (`FS`), plus a directory listing for the scan.
  * The C++ object state (`_mounted`, `_imageCount`, `_catalogue`,
    `_currentFile`, `_currentIndex`, `_currentBlock`) is a `ReaderState`
    record.  `_imageCount` and the filled prefix of the `_catalogue[]`
    array are modelled jointly as one list `catalogue` (the source only
    ever reads `_catalogue[i]` for `i < _imageCount`), so zeroing the
    count corresponds to emptying the list.
  * Methods returning `bool` plus an out-parameter are modelled as
    functions returning the updated state paired with an `Option` result
    (`none` = the C++ `false` return).
-/

/-- Constant `VSENSOR_BLOCK_SIZE` (StorageReader.h, line 61). -/
def BLOCK_SIZE : Nat := 512

/-- Constant `VSENSOR_MAX_IMAGES` (StorageReader.h, line 64). -/
def MAX_IMAGES : Nat := 32

/-- The wrap modulus of the 32-bit unsigned arithmetic (`uint32_t`,
`size_t`) in which the source computes file sizes and block counts on
the ESP32-S3 target. -/
def UINT32_MOD : Nat := 2 ^ 32

/-- Constant `VSENSOR_IMAGE_DIR` (StorageReader.h, line 67). -/
def IMAGE_DIR : List Char := ['/', 'i', 'm', 'a', 'g', 'e', 's']

/-- Record `struct ImageInfo` (StorageReader.h). -/
structure ImageInfo where
  filename : List Char
  fileSize : Nat
  totalBlocks : Nat
  checksum : Nat
deriving Repr, DecidableEq

instance : Inhabited ImageInfo := ⟨⟨[], 0, 0, 0⟩⟩

/-- Record `struct BlockReadResult` (StorageReader.h).  `data` holds the bytes
actually read, i.e. the meaningful region `data[0..length)` of the C++
512-byte buffer. -/
structure BlockReadResult where
  data : List Nat
  length : Nat
  blockIndex : Nat
  isLast : Bool
deriving Repr, DecidableEq

/-- An open `File` handle: its payload and the current read position. -/
structure OpenFile where
  content : List Nat
  pos : Nat
deriving Repr, DecidableEq

/-- One entry of the `/images` directory listing, as surfaced by
`dir.openNextFile()`: its name, whether it is a subdirectory, and its
size in bytes. -/
structure DirEntry where
  name : List Char
  isDir : Bool
  size : Nat
deriving Repr, DecidableEq

/-- The file store of the SD card: full path to payload bytes. -/
def FS : Type := List (List Char × List Nat)

/-- Models `SD.open(path, FILE_READ)`: succeeds iff the path is present. -/
def fsOpen : FS → List Char → Option (List Nat)
  | [], _ => none
  | (p, c) :: rest, path => if p = path then some c else fsOpen rest path

/-- The SD card as seen by `begin()`: whether `SD.begin` succeeds, whether
a card type is detected (`cardType != CARD_NONE`), the `/images` directory
listing (`none` when the directory cannot be opened or is not a
directory), and the file store. -/
structure SDCard where
  mountOk : Bool
  hasCard : Bool
  root : Option (List DirEntry)
  files : FS

/-- The `StorageReader` object state. -/
structure ReaderState where
  mounted : Bool
  catalogue : List ImageInfo
  currentFile : Option OpenFile
  currentIndex : Nat
  currentBlock : Nat
deriving Repr, DecidableEq

/-- The constructor `StorageReader::StorageReader()`. -/
def initialState : ReaderState :=
  { mounted := false, catalogue := [], currentFile := none,
    currentIndex := 0xFF, currentBlock := 0 }

/-- Array access `_catalogue[i]` (the source only performs it with
`i < _imageCount`). -/
def catEntry (s : ReaderState) (i : Nat) : ImageInfo :=
  s.catalogue.getD i default

/-- Method `StorageReader::imageCount`. -/
def imageCount (s : ReaderState) : Nat :=
  s.catalogue.length

/-- Method `StorageReader::getImageInfo`: `none` models the `false` return, a
`some` carries the copied-out `ImageInfo`. -/
def getImageInfo (s : ReaderState) (index : Nat) : Option ImageInfo :=
  if imageCount s ≤ index then none else some (catEntry s index)

/-- Method `StorageReader::closeImage`. -/
def closeImage (s : ReaderState) : ReaderState :=
  if s.currentFile.isSome then
    { s with currentFile := none, currentIndex := 0xFF, currentBlock := 0 }
  else s

/-- Method `StorageReader::isImageOpen`. -/
def isImageOpen (s : ReaderState) : Bool :=
  s.currentFile.isSome

/-- Method `StorageReader::openImage`. -/
def openImage (fs : FS) (s : ReaderState) (index : Nat) : ReaderState × Bool :=
  if ¬ s.mounted ∨ imageCount s ≤ index then (s, false)
  else
    let s1 := closeImage s
    match fsOpen fs (catEntry s index).filename with
    | none => (s1, false)
    | some content =>
      ({ s1 with currentFile := some ⟨content, 0⟩,
                 currentIndex := index, currentBlock := 0 }, true)

/-- Models `File::seek(off)` on a read-mode file: succeeds iff the target lies
within the file, leaving the position untouched on failure. -/
def fileSeek (f : OpenFile) (off : Nat) : Option OpenFile :=
  if off ≤ f.content.length then some { f with pos := off } else none

/-- Models `File::read(buf, n)`: reads `min n (remaining)` bytes and advances the
position by the number of bytes read. -/
def fileRead (f : OpenFile) (n : Nat) : OpenFile × List Nat :=
  let bytes := (f.content.drop f.pos).take n
  ({ f with pos := f.pos + bytes.length }, bytes)

/-- Method `StorageReader::_readAtOffset`.  Returns the file handle (its position
can move even on a failed call) paired with the optional result.  The
source only calls this with `blockIdx < totalBlocks`, so `totalBlocks - 1`
never underflows. -/
def readAtOffset (f : OpenFile) (byteOffset blockIdx totalBlocks : Nat) :
    OpenFile × Option BlockReadResult :=
  let f1opt : Option OpenFile :=
    if f.pos = byteOffset then some f else fileSeek f byteOffset
  match f1opt with
  | none => (f, none)
  | some f1 =>
    let r := fileRead f1 BLOCK_SIZE
    if r.2.length = 0 then (f1, none)
    else (r.1, some { data := r.2, length := r.2.length,
                      blockIndex := blockIdx,
                      isLast := decide (blockIdx = totalBlocks - 1) })

/-- Method `StorageReader::readNextBlock`: `(new state, none)` models a `false`
return (no stream open, cursor exhausted, or I/O failure), `(new state,
some r)` a `true` return with `r` in the out-parameter. -/
def readNextBlock (s : ReaderState) : ReaderState × Option BlockReadResult :=
  match s.currentFile with
  | none => (s, none)
  | some f =>
    let totalBlocks := (catEntry s s.currentIndex).totalBlocks
    if totalBlocks ≤ s.currentBlock then (s, none)
    else
      let byteOffset := s.currentBlock * BLOCK_SIZE
      match readAtOffset f byteOffset s.currentBlock totalBlocks with
      | (f1, none) => ({ s with currentFile := some f1 }, none)
      | (f1, some r) =>
        ({ s with currentFile := some f1,
                  currentBlock := s.currentBlock + 1 }, some r)

/-- Method `StorageReader::readBlock` (random access). -/
def readBlock (s : ReaderState) (blockIndex : Nat) :
    ReaderState × Option BlockReadResult :=
  match s.currentFile with
  | none => (s, none)
  | some f =>
    let totalBlocks := (catEntry s s.currentIndex).totalBlocks
    if totalBlocks ≤ blockIndex then (s, none)
    else
      let byteOffset := blockIndex * BLOCK_SIZE
      match fileSeek f byteOffset with
      | none => (s, none)
      | some f1 =>
        let r := readAtOffset f1 byteOffset blockIndex totalBlocks
        ({ s with currentFile := some r.1 }, r.2)

/-- One byte of the Fletcher-16 loop body:
`sum1 = (sum1 + b) % 255; sum2 = (sum2 + sum1) % 255`. -/
def fletcherStep (p : Nat × Nat) (b : Nat) : Nat × Nat :=
  ((p.1 + b) % 255, (p.2 + (p.1 + b) % 255) % 255)

/-- The `while (f.available())` loop of `computeChecksum`, with an explicit
structural-recursion bound `fuel` (each iteration consumes at least one
byte of `remaining`, so `remaining.length` rounds of fuel always suffice):
repeatedly read up to `BLOCK_SIZE` bytes and run the inner per-byte loop
over the chunk.  `remaining` is the unread tail of the file. -/
def checksumChunksF : Nat → List Nat → Nat × Nat → Nat × Nat
  | 0, _, p => p
  | fuel + 1, remaining, p =>
    if remaining = [] then p
    else checksumChunksF fuel (remaining.drop BLOCK_SIZE)
           ((remaining.take BLOCK_SIZE).foldl fletcherStep p)

/-- The `while (f.available())` loop of `computeChecksum`. -/
def checksumChunks (remaining : List Nat) (p : Nat × Nat) : Nat × Nat :=
  checksumChunksF remaining.length remaining p

/-- Method `StorageReader::computeChecksum`. -/
def computeChecksum (fs : FS) (s : ReaderState) (index : Nat) : Nat :=
  if ¬ s.mounted ∨ imageCount s ≤ index then 0
  else
    match fsOpen fs (catEntry s index).filename with
    | none => 0
    | some content =>
      let p := checksumChunks content (0, 0)
      p.2 * 256 + p.1

/-- Arduino `String::toLowerCase` on a name. -/
def lowerName (l : List Char) : List Char :=
  l.map Char.toLower

/-- Arduino `String::endsWith`. -/
def endsWithName (l suf : List Char) : Bool :=
  decide (suf.length ≤ l.length ∧ l.drop (l.length - suf.length) = suf)

/-- Test `name[0] == '.'` (on the empty C string `name[0]` is the terminator,
which is not `'.'`). -/
def startsWithDot : List Char → Bool
  | [] => false
  | c :: _ => decide (c = '.')

/-- The acceptance test of the scan loop: not a directory, not hidden,
and the lower-cased name ends in `.jpg` or `.jpeg`. -/
def eligible (e : DirEntry) : Bool :=
  !e.isDir && !startsWithDot e.name &&
    (endsWithName (lowerName e.name) ['.', 'j', 'p', 'g'] ||
     endsWithName (lowerName e.name) ['.', 'j', 'p', 'e', 'g'])

/-- The catalogue entry built for an accepted file:
`snprintf(img.filename, …, "%s/%s", VSENSOR_IMAGE_DIR, name)`,
`fileSize = entry.size()` (a `uint32_t`), and
`totalBlocks = (fileSize + BLOCK_SIZE - 1) / BLOCK_SIZE` computed in
32-bit unsigned arithmetic: the sum `fileSize + BLOCK_SIZE - 1` wraps
modulo `2^32` before the division, exactly as the `uint32_t`/`size_t`
expression does on the 32-bit target (so for `fileSize ≥ 2^32 - 511`
the catalogued `totalBlocks` is 0, not the mathematical ceiling).
`checksum = 0`. -/
def mkInfo (e : DirEntry) : ImageInfo :=
  { filename := IMAGE_DIR ++ '/' :: e.name,
    fileSize := e.size % UINT32_MOD,
    totalBlocks := ((e.size % UINT32_MOD + BLOCK_SIZE - 1) % UINT32_MOD) / BLOCK_SIZE,
    checksum := 0 }

/-- The `while (_imageCount < VSENSOR_MAX_IMAGES)` enumeration loop of
`_scanDirectory`; `cnt` is the current `_imageCount`. -/
def scanLoop (cnt : Nat) : List DirEntry → List ImageInfo
  | [] => []
  | e :: rest =>
    if MAX_IMAGES ≤ cnt then []
    else if e.isDir || startsWithDot e.name then scanLoop cnt rest
    else if endsWithName (lowerName e.name) ['.', 'j', 'p', 'g'] ||
            endsWithName (lowerName e.name) ['.', 'j', 'p', 'e', 'g'] then
      mkInfo e :: scanLoop (cnt + 1) rest
    else scanLoop cnt rest

/-- Method `StorageReader::_scanDirectory`: the produced catalogue (starting from
`_imageCount = 0`) and the boolean result. -/
def scanDir (root : Option (List DirEntry)) : List ImageInfo × Bool :=
  match root with
  | none => ([], false)
  | some entries =>
    let cat := scanLoop 0 entries
    (cat, decide (0 < cat.length))

/-- Method `StorageReader::begin`. -/
def beginFn (sd : SDCard) (s : ReaderState) : ReaderState × Bool :=
  if s.mounted then (s, true)
  else if !sd.mountOk then (s, false)
  else if !sd.hasCard then (s, false)
  else
    let r := scanDir sd.root
    ({ s with mounted := true, catalogue := r.1 }, r.2)

/-- Method `StorageReader::end`. -/
def endFn (s : ReaderState) : ReaderState :=
  let s1 := closeImage s
  if s1.mounted then { s1 with mounted := false, catalogue := [] }
  else s1

/-- Drive `readNextBlock` up to `n` times, collecting the successful
results in order and stopping at the first `false` return. -/
def seqRun (s : ReaderState) : Nat → List BlockReadResult × ReaderState
  | 0 => ([], s)
  | n + 1 =>
    match readNextBlock s with
    | (s1, none) => ([], s1)
    | (s1, some r) =>
      let rest := seqRun s1 n
      (r :: rest.1, rest.2)

/-! ### Concrete fixtures used by witnesses and counterexamples -/

/-- The path `/images/a.jpg`. -/
def pathA : List Char := IMAGE_DIR ++ '/' :: ['a', '.', 'j', 'p', 'g']

/-- A catalogue entry for a 3-byte file `/images/a.jpg` (one block). -/
def entryA : ImageInfo := ⟨pathA, 3, 1, 0⟩

/-- A file store holding `/images/a.jpg` with payload bytes 1, 2, 3. -/
def fsA : FS := [(pathA, [1, 2, 3])]

/-- A mounted reader with `entryA` catalogued and no stream open. -/
def stMounted : ReaderState :=
  { mounted := true, catalogue := [entryA], currentFile := none,
    currentIndex := 0xFF, currentBlock := 0 }

/-- The same reader with the stream on `entryA` fully consumed: the file
is open at index 0, the cursor has reached `totalBlocks = 1`, and the
read position sits at the end of the 3-byte payload. -/
def stAtEOF : ReaderState :=
  { mounted := true, catalogue := [entryA],
    currentFile := some ⟨[1, 2, 3], 3⟩, currentIndex := 0, currentBlock := 1 }

/-- An SD card whose `/images` directory exists but is empty. -/
def sdEmpty : SDCard :=
  { mountOk := true, hasCard := true, root := some [], files := [] }

/-- The directory of the C7 example: `a.JPG`, `b.png`, `.hidden.jpg`, and
a subdirectory named `c.jpg`. -/
def exampleDir : List DirEntry :=
  [⟨['a', '.', 'J', 'P', 'G'], false, 1000⟩,
   ⟨['b', '.', 'p', 'n', 'g'], false, 1000⟩,
   ⟨['.', 'h', 'i', 'd', 'd', 'e', 'n', '.', 'j', 'p', 'g'], false, 1000⟩,
   ⟨['c', '.', 'j', 'p', 'g'], true, 1000⟩]

/-- A directory with 33 identical eligible files. -/
def manyDir : List DirEntry :=
  List.replicate 33 ⟨['x', '.', 'j', 'p', 'g'], false, 7⟩

/-- A reader with the stream just opened on `entryA` (cursor at 0). -/
def stOpen : ReaderState :=
  { mounted := true, catalogue := [entryA],
    currentFile := some ⟨[1, 2, 3], 0⟩, currentIndex := 0, currentBlock := 0 }

/-- A FAT32-maximal file size, `2^32 - 1` bytes: valid on the card, and
large enough that the 32-bit block-count sum `fileSize + 511` wraps. -/
def hugeSize : Nat := 4294967295

/-- A directory holding one such maximal file, `h.jpg`. -/
def hugeDir : List DirEntry := [⟨['h', '.', 'j', 'p', 'g'], false, hugeSize⟩]

/-- The catalogue entry the scan builds for `h.jpg` (its `totalBlocks`
wraps to 0). -/
def hugeEntry : ImageInfo := mkInfo ⟨['h', '.', 'j', 'p', 'g'], false, hugeSize⟩

/-- The payload of `h.jpg`: `hugeSize` zero bytes (never evaluated
element-wise in any proof). -/
def hugeContent : List Nat := List.replicate hugeSize 0

/-- A file store holding `h.jpg` with its full payload. -/
def fsHuge : FS := [(hugeEntry.filename, hugeContent)]

/-- A mounted reader that has catalogued `h.jpg`, no stream open. -/
def stHuge : ReaderState :=
  { mounted := true, catalogue := [hugeEntry], currentFile := none,
    currentIndex := 0xFF, currentBlock := 0 }

/-! ### Claim C9: lifecycle idempotence -/

/-- Claim C9: calling `end` (unmount) twice in a row, or `closeImage`
(close stream) when no stream is open, never fails, and the second call
changes no observable state: the second `endFn` and the second
`closeImage` are the identity on the state reached after the first call,
and `closeImage` on a state with no open stream is the identity. -/
theorem spec_C9_lifecycle_idempotent (s : ReaderState) :
    endFn (endFn s) = endFn s ∧
    closeImage (closeImage s) = closeImage s ∧
    (s.currentFile = none → closeImage s = s) := by
  obtain ⟨m, cat, cf, ci, cb⟩ := s
  cases cf <;> cases m <;> simp [endFn, closeImage]

/-- Witness for C9: the hypothesis of the third conjunct discharged on
the freshly constructed reader, which has no open stream. -/
theorem spec_C9_witness : closeImage initialState = initialState :=
  (spec_C9_lifecycle_idempotent initialState).2.2 rfl

/-! ### Claim C6: out-of-range accesses fail without mutating state -/

/-- Claim C6: for every index at or beyond the catalogue count,
`getImageInfo` and `openImage` fail, and for every block index at or
beyond the open entry's `totalBlocks`, `readBlock` fails; in every case
the whole reader state (catalogue, active index, cursor, file handle) is
returned unchanged. -/
theorem spec_C6_out_of_range_atomic (fs : FS) (s : ReaderState)
    (i k : Nat) (f : OpenFile) :
    (imageCount s ≤ i →
      getImageInfo s i = none ∧ openImage fs s i = (s, false)) ∧
    (s.currentFile = some f →
      (catEntry s s.currentIndex).totalBlocks ≤ k →
      readBlock s k = (s, none)) := by
  constructor
  · intro hi
    constructor
    · simp [getImageInfo, hi]
    · simp [openImage, hi]
  · intro hf hk
    simp [readBlock, hf, hk]

/-- Witness for C6: index 5 is out of range for the one-entry catalogue
of `stMounted`, and block index 9 is out of range for the one-block open
entry of `stAtEOF`. -/
theorem spec_C6_witness :
    (getImageInfo stMounted 5 = none ∧
      openImage fsA stMounted 5 = (stMounted, false)) ∧
    readBlock stAtEOF 9 = (stAtEOF, none) :=
  ⟨(spec_C6_out_of_range_atomic fsA stMounted 5 9 ⟨[1, 2, 3], 3⟩).1 (by decide),
   (spec_C6_out_of_range_atomic fsA stAtEOF 5 9 ⟨[1, 2, 3], 3⟩).2
     (by decide) (by decide)⟩

/-! ### Claim C3: no-stream failure versus end-of-data -/

/-- Counterexample to claim C3 as stated: `readNextBlock` with no stream
open (`stMounted`) and `readNextBlock` at end-of-data (`stAtEOF`, cursor
at `totalBlocks`) produce the *same* result signal — the `false`/`none`
return — so the precondition-violation failure is not distinguishable by
the caller from the end-of-data signal. -/
theorem spec_C3_counterexample :
    (readNextBlock stMounted).2 = (readNextBlock stAtEOF).2 ∧
    (readNextBlock stMounted).2 = none ∧
    isImageOpen stMounted = false ∧
    isImageOpen stAtEOF = true ∧
    (catEntry stAtEOF stAtEOF.currentIndex).totalBlocks ≤
      stAtEOF.currentBlock := by
  decide

/-- Claim C3 as amended: calling `readNextBlock` with no stream open
fails, and exhausting the cursor also fails with the same `false` signal;
the two conditions are distinguishable only through the separate query
`isImageOpen` (false in the first case, true in the second), not through
the return value of `readNextBlock` itself. -/
theorem spec_C3_no_stream_vs_eof (s : ReaderState) :
    (s.currentFile = none →
      readNextBlock s = (s, none) ∧ isImageOpen s = false) ∧
    (∀ f, s.currentFile = some f →
      (catEntry s s.currentIndex).totalBlocks ≤ s.currentBlock →
      (readNextBlock s).2 = none ∧ isImageOpen s = true) := by
  constructor
  · intro h
    constructor
    · simp [readNextBlock, h]
    · simp [isImageOpen, h]
  · intro f hf hk
    constructor
    · simp [readNextBlock, hf, hk]
    · simp [isImageOpen, hf]

/-- Witness for C3 (amended): both branches discharged on the concrete
states `stMounted` (no stream) and `stAtEOF` (exhausted cursor). -/
theorem spec_C3_witness :
    (readNextBlock stMounted = (stMounted, none) ∧
      isImageOpen stMounted = false) ∧
    ((readNextBlock stAtEOF).2 = none ∧ isImageOpen stAtEOF = true) :=
  ⟨(spec_C3_no_stream_vs_eof stMounted).1 rfl,
   (spec_C3_no_stream_vs_eof stAtEOF).2 ⟨[1, 2, 3], 3⟩ rfl (by decide)⟩

/-! ### Claim C10: begin() retry after an empty scan -/

/-- Claim C10: if `begin` fails while leaving the reader mounted (the
zero-eligible-files scan failure), then the catalogue is empty and an
immediately following `begin` — against any SD card state, i.e. without
rescanning — returns `true` and changes nothing. -/
theorem spec_C10_begin_retry (sd sd2 : SDCard) (s : ReaderState)
    (hfail : (beginFn sd s).2 = false)
    (hmnt : ((beginFn sd s).1).mounted = true) :
    beginFn sd2 (beginFn sd s).1 = ((beginFn sd s).1, true) ∧
    imageCount (beginFn sd s).1 = 0 := by
  by_cases hm : s.mounted
  · simp [beginFn, hm] at hfail
  · by_cases hok : sd.mountOk
    · by_cases hc : sd.hasCard
      · have h1 : beginFn sd s =
            ({ s with mounted := true, catalogue := (scanDir sd.root).1 },
             (scanDir sd.root).2) := by
          simp [beginFn, hm, hok, hc]
        rw [h1] at hfail ⊢
        have hfail2 : (scanDir sd.root).2 = false := by simpa using hfail
        have hlen : (scanDir sd.root).1.length = 0 := by
          rcases hroot : sd.root with _ | entries
          · simp [scanDir]
          · rw [hroot] at hfail2
            simp only [scanDir, decide_eq_false_iff_not, Nat.not_lt,
              Nat.le_zero] at hfail2 ⊢
            exact hfail2
        refine ⟨by simp [beginFn], by simpa [imageCount] using hlen⟩
      · have h1 : beginFn sd s = (s, false) := by simp [beginFn, hm, hok, hc]
        rw [h1] at hmnt
        exact absurd hmnt (by simpa using hm)
    · have h1 : beginFn sd s = (s, false) := by simp [beginFn, hm, hok]
      rw [h1] at hmnt
      exact absurd hmnt (by simpa using hm)

/-- Witness for C10: a card whose `/images` directory is empty makes the
first `begin` fail with the medium mounted; the retry succeeds with an
empty catalogue. -/
theorem spec_C10_witness :
    beginFn sdEmpty (beginFn sdEmpty initialState).1 =
      ((beginFn sdEmpty initialState).1, true) ∧
    imageCount (beginFn sdEmpty initialState).1 = 0 :=
  spec_C10_begin_retry sdEmpty sdEmpty initialState (by decide) (by decide)

/-! ### The directory scan as filter-map-truncate -/

/-- The scan loop enumerates the directory in order, keeps exactly the
`eligible` entries, builds `mkInfo` for each, and truncates at the
remaining catalogue capacity. -/
theorem scanLoop_eq_take (entries : List DirEntry) :
    ∀ cnt, scanLoop cnt entries =
      ((entries.filter eligible).map mkInfo).take (MAX_IMAGES - cnt) := by
  induction entries with
  | nil => intro cnt; simp [scanLoop]
  | cons e rest ih =>
    intro cnt
    by_cases hcap : MAX_IMAGES ≤ cnt
    · have h0 : MAX_IMAGES - cnt = 0 := by omega
      simp [scanLoop, hcap, h0]
    · cases hdir : e.isDir with
      | true =>
        have hel : eligible e = false := by simp [eligible, hdir]
        simp [scanLoop, hcap, hdir, hel, ih]
      | false =>
        cases hdot : startsWithDot e.name with
        | true =>
          have hel : eligible e = false := by simp [eligible, hdot]
          simp [scanLoop, hcap, hdir, hdot, hel, ih]
        | false =>
          cases hext : (endsWithName (lowerName e.name) ['.', 'j', 'p', 'g'] ||
              endsWithName (lowerName e.name) ['.', 'j', 'p', 'e', 'g']) with
          | false =>
            have hel : eligible e = false := by
              simp only [eligible, hdir, hdot, hext]
              rfl
            simp [scanLoop, hcap, hdir, hdot, hext, hel, ih]
          | true =>
            have hel : eligible e = true := by
              simp only [eligible, hdir, hdot, hext]
              rfl
            have hsucc : MAX_IMAGES - cnt = (MAX_IMAGES - (cnt + 1)) + 1 := by
              omega
            simp [scanLoop, hcap, hdir, hdot, hext, hel, hsucc,
              List.take_succ_cons, ih]

/-! ### Claim C5: block-count invariant -/

/-- Counterexample to claim C5 as stated: scanning a directory that holds
the FAT32-valid file `h.jpg` of `2^32 - 1` bytes catalogues an entry with
`fileSize > 0` whose `totalBlocks` is 0 — the 32-bit sum
`fileSize + 511` wraps before the division — not the mathematical
ceiling `⌈fileSize / BLOCK_SIZE⌉ = 8388608`, refuting both conjuncts of
the claimed invariant on a real scanned entry. -/
theorem spec_C5_counterexample :
    mkInfo ⟨['h', '.', 'j', 'p', 'g'], false, 4294967295⟩ ∈
      (scanDir (some hugeDir)).1 ∧
    0 < (mkInfo ⟨['h', '.', 'j', 'p', 'g'], false, 4294967295⟩).fileSize ∧
    (mkInfo ⟨['h', '.', 'j', 'p', 'g'], false, 4294967295⟩).totalBlocks = 0 ∧
    (mkInfo ⟨['h', '.', 'j', 'p', 'g'], false, 4294967295⟩).totalBlocks ≠
      (mkInfo ⟨['h', '.', 'j', 'p', 'g'], false, 4294967295⟩).fileSize ⌈/⌉
        BLOCK_SIZE := by
  decide

/-- Claim C5 as amended: every entry produced by a directory scan
satisfies `totalBlocks = ((fileSize + BLOCK_SIZE - 1) mod 2^32) /
BLOCK_SIZE` (the 32-bit computation the source performs), which equals
the mathematical ceiling `⌈fileSize / BLOCK_SIZE⌉` — and is therefore
`≥ 1` whenever `fileSize > 0` — provided the sum `fileSize + BLOCK_SIZE
- 1` does not wrap (i.e. `fileSize ≤ 2^32 - BLOCK_SIZE`); and the
streaming operations never modify the catalogue, so this persists
throughout the mount session. -/
theorem spec_C5_block_count :
    (∀ root info, info ∈ (scanDir root).1 →
      info.totalBlocks =
        ((info.fileSize + BLOCK_SIZE - 1) % UINT32_MOD) / BLOCK_SIZE ∧
      (info.fileSize + BLOCK_SIZE - 1 < UINT32_MOD →
        info.totalBlocks = info.fileSize ⌈/⌉ BLOCK_SIZE ∧
        (0 < info.fileSize → 1 ≤ info.totalBlocks))) ∧
    (∀ (fs : FS) (s : ReaderState) (i k n : Nat),
      (readNextBlock s).1.catalogue = s.catalogue ∧
      (readBlock s k).1.catalogue = s.catalogue ∧
      (openImage fs s i).1.catalogue = s.catalogue ∧
      (closeImage s).catalogue = s.catalogue ∧
      (seqRun s n).2.catalogue = s.catalogue) := by
  constructor
  · rintro (_ | entries) info hmem
    · simp [scanDir] at hmem
    · simp only [scanDir, scanLoop_eq_take] at hmem
      have hmem2 := List.mem_of_mem_take hmem
      obtain ⟨e, -, rfl⟩ := List.mem_map.mp hmem2
      refine ⟨rfl, ?_⟩
      intro hwrap
      simp only [mkInfo] at hwrap ⊢
      have h512 : (0 : Nat) < BLOCK_SIZE := by norm_num [BLOCK_SIZE]
      refine ⟨?_, ?_⟩
      · rw [Nat.ceilDiv_eq_add_pred_div, Nat.mod_eq_of_lt hwrap]
      · intro hpos
        rw [Nat.mod_eq_of_lt hwrap, Nat.le_div_iff_mul_le h512]
        omega
  · intro fs s i k n
    have hnext : ∀ t : ReaderState, (readNextBlock t).1.catalogue = t.catalogue := by
      intro t
      cases hf : t.currentFile with
      | none => simp [readNextBlock, hf]
      | some f =>
        simp only [readNextBlock, hf]
        split
        · rfl
        · split <;> rfl
    refine ⟨hnext s, ?_, ?_, ?_, ?_⟩
    · cases hf : s.currentFile with
      | none => simp [readBlock, hf]
      | some f =>
        simp only [readBlock, hf]
        split
        · rfl
        · split <;> rfl
    · unfold openImage closeImage
      split
      · rfl
      · split <;> split <;> rfl
    · unfold closeImage
      split <;> rfl
    · induction n generalizing s with
      | zero => simp [seqRun]
      | succ m ih =>
        simp only [seqRun]
        split
        · rename_i s1 heq
          have := hnext s
          rw [heq] at this
          exact this
        · rename_i s1 r heq
          have h1 := hnext s
          rw [heq] at h1
          rw [ih s1]
          exact h1

/-- Witness for C5 (amended): the invariant checked on the single entry
produced by scanning a one-file directory, with the membership and
no-wrap hypotheses discharged concretely. -/
theorem spec_C5_witness :
    (mkInfo ⟨['a', '.', 'j', 'p', 'g'], false, 1000⟩).totalBlocks =
      (mkInfo ⟨['a', '.', 'j', 'p', 'g'], false, 1000⟩).fileSize ⌈/⌉
        BLOCK_SIZE ∧
    (0 < (mkInfo ⟨['a', '.', 'j', 'p', 'g'], false, 1000⟩).fileSize →
      1 ≤ (mkInfo ⟨['a', '.', 'j', 'p', 'g'], false, 1000⟩).totalBlocks) :=
  (spec_C5_block_count.1 (some [⟨['a', '.', 'j', 'p', 'g'], false, 1000⟩])
    (mkInfo ⟨['a', '.', 'j', 'p', 'g'], false, 1000⟩) (by decide)).2
    (by decide)

/-! ### Claim C7: scan filter correctness -/

/-- Claim C7: the scan keeps exactly the entries that are not
subdirectories, not hidden-marked, and whose lower-cased name ends in
`.jpg` or `.jpeg` (the `eligible` predicate), in directory order; on the
example directory `a.JPG`, `b.png`, `.hidden.jpg`, subdirectory `c.jpg`
it catalogues exactly the one entry built from `a.JPG`. -/
theorem spec_C7_filter_correct :
    (∀ entries, scanLoop 0 entries =
      ((entries.filter eligible).map mkInfo).take MAX_IMAGES) ∧
    (scanDir (some exampleDir)).1 =
      [mkInfo ⟨['a', '.', 'J', 'P', 'G'], false, 1000⟩] := by
  constructor
  · intro entries
    simpa using scanLoop_eq_take entries 0
  · decide

/-! ### Claim C8: capacity truncation -/

/-- Claim C8: scanning a directory with more than `MAX_IMAGES` eligible
files catalogues exactly `MAX_IMAGES` entries and reports success, and no
scan ever produces more than `MAX_IMAGES` entries. -/
theorem spec_C8_capacity_truncation (entries : List DirEntry)
    (h : MAX_IMAGES < (entries.filter eligible).length) :
    (scanDir (some entries)).1.length = MAX_IMAGES ∧
    (scanDir (some entries)).2 = true ∧
    (∀ root, (scanDir root).1.length ≤ MAX_IMAGES) := by
  have hlen : (scanDir (some entries)).1.length = MAX_IMAGES := by
    simp only [scanDir, scanLoop_eq_take, Nat.sub_zero, List.length_take,
      List.length_map]
    omega
  refine ⟨hlen, ?_, ?_⟩
  · simp only [scanDir] at hlen ⊢
    rw [decide_eq_true_iff]
    rw [hlen]
    norm_num [MAX_IMAGES]
  · rintro (_ | entries2)
    · simp [scanDir]
    · simp only [scanDir, scanLoop_eq_take, Nat.sub_zero, List.length_take]
      omega

/-- Witness for C8: the 33-file directory `manyDir` exceeds capacity; the
scan yields exactly 32 entries and succeeds. -/
theorem spec_C8_witness :
    (scanDir (some manyDir)).1.length = MAX_IMAGES ∧
    (scanDir (some manyDir)).2 = true ∧
    (∀ root, (scanDir root).1.length ≤ MAX_IMAGES) :=
  spec_C8_capacity_truncation manyDir (by decide)

/-! ### Claim C4: checksum correctness and determinism -/

/-- Reading the file chunk-by-chunk and folding the per-byte Fletcher
step over each chunk is the same as folding it over the whole byte
sequence, for any sufficient fuel. -/
theorem checksumChunksF_eq_foldl :
    ∀ (fuel : Nat) (l : List Nat) (p : Nat × Nat), l.length ≤ fuel →
      checksumChunksF fuel l p = l.foldl fletcherStep p := by
  intro fuel
  induction fuel with
  | zero =>
    intro l p h
    have hl : l = [] := List.length_eq_zero.mp (Nat.le_zero.mp h)
    simp [checksumChunksF, hl]
  | succ m ih =>
    intro l p h
    by_cases hl : l = []
    · simp [checksumChunksF, hl]
    · simp only [checksumChunksF, if_neg hl]
      rw [ih]
      · conv_rhs => rw [← List.take_append_drop BLOCK_SIZE l]
        rw [List.foldl_append]
      · have h1 : 0 < l.length := List.length_pos.mpr hl
        have hB : (0 : Nat) < BLOCK_SIZE := by norm_num [BLOCK_SIZE]
        simp only [List.length_drop]
        omega

/-- Claim C4: `computeChecksum` computes the Fletcher-16 sum described by
the spec formula (per byte, `sum1 := (sum1 + b) % 255` then
`sum2 := (sum2 + sum1) % 255`, result `sum2 * 256 + sum1`); it is 0 for a
zero-length file, `0x0A06` for the three-byte payload 1, 2, 3, and its
value depends only on the mount flag, the catalogue and the file store —
so two calls with the file unchanged return the same value regardless of
any intervening stream activity. -/
theorem spec_C4_checksum_correct (fs : FS) (s s2 : ReaderState) (i : Nat)
    (content : List Nat)
    (hm : s.mounted = true) (hi : i < imageCount s)
    (ho : fsOpen fs (catEntry s i).filename = some content) :
    computeChecksum fs s i =
      (content.foldl fletcherStep (0, 0)).2 * 256 +
        (content.foldl fletcherStep (0, 0)).1 ∧
    (content = [] → computeChecksum fs s i = 0) ∧
    (content = [1, 2, 3] → computeChecksum fs s i = 0x0A06) ∧
    (s2.mounted = s.mounted → s2.catalogue = s.catalogue →
      computeChecksum fs s2 i = computeChecksum fs s i) := by
  have hmain : computeChecksum fs s i =
      (content.foldl fletcherStep (0, 0)).2 * 256 +
        (content.foldl fletcherStep (0, 0)).1 := by
    have hcond : ¬ (¬ s.mounted = true ∨ imageCount s ≤ i) := by
      push_neg
      exact ⟨hm, by omega⟩
    simp only [computeChecksum, checksumChunks, if_neg hcond, ho]
    rw [checksumChunksF_eq_foldl content.length content (0, 0) le_rfl]
  refine ⟨hmain, ?_, ?_, ?_⟩
  · intro hnil
    rw [hmain, hnil]
    rfl
  · intro h123
    rw [hmain, h123]
    rfl
  · intro hm2 hcat2
    simp only [computeChecksum, imageCount, catEntry, hm2, hcat2]

/-- Witness for C4: the checksum of the catalogued 3-byte file
`/images/a.jpg` with payload 1, 2, 3 evaluates to `0x0A06`. -/
theorem spec_C4_witness : computeChecksum fsA stMounted 0 = 0x0A06 :=
  (spec_C4_checksum_correct fsA stMounted stMounted 0 [1, 2, 3] rfl
    (by decide) (by decide)).2.2.1 rfl

/-! ### Block arithmetic and single-step characterisations -/

/-- A block index is below `ceil(len / BLOCK_SIZE)` exactly when its byte
offset lies inside the file. -/
theorem lt_ceil_iff (k len : Nat) :
    k < (len + BLOCK_SIZE - 1) / BLOCK_SIZE ↔ k * BLOCK_SIZE < len := by
  have hB : BLOCK_SIZE = 512 := rfl
  rw [hB]
  constructor
  · intro h
    have h2 := (Nat.le_div_iff_mul_le (by norm_num : (0 : Nat) < 512)).mp h
    omega
  · intro h
    exact (Nat.le_div_iff_mul_le (by norm_num : (0 : Nat) < 512)).mpr (by omega)

/-- A run of `ceil(len / BLOCK_SIZE)` blocks covers the whole file. -/
theorem len_le_ceil_mul (len : Nat) :
    len ≤ ((len + BLOCK_SIZE - 1) / BLOCK_SIZE) * BLOCK_SIZE := by
  by_contra h
  push_neg at h
  exact absurd ((lt_ceil_iff _ _).mpr h) (lt_irrefl _)

/-- Running `_readAtOffset` on an in-range offset: whether or not the position
already matches (the sequential fast path) or a seek is needed, it reads
the block starting at `off` and leaves the position right after the bytes
read. -/
theorem readAtOffset_run (content : List Nat) (q off bi tb : Nat)
    (hoff : off < content.length) :
    readAtOffset ⟨content, q⟩ off bi tb =
      (⟨content, off + min BLOCK_SIZE (content.length - off)⟩,
       some { data := (content.drop off).take BLOCK_SIZE,
              length := min BLOCK_SIZE (content.length - off),
              blockIndex := bi, isLast := decide (bi = tb - 1) }) := by
  have hlen : ((content.drop off).take BLOCK_SIZE).length =
      min BLOCK_SIZE (content.length - off) := by
    simp [List.length_take, List.length_drop]
  have hne : ¬ ((content.drop off).take BLOCK_SIZE).length = 0 := by
    rw [hlen]
    have hB : (0 : Nat) < BLOCK_SIZE := by norm_num [BLOCK_SIZE]
    omega
  by_cases hpos : q = off
  · subst hpos
    simp only [readAtOffset, fileRead, if_pos rfl, if_true]
    simp only [if_neg hne]
    simp [hlen]
  · simp only [readAtOffset, fileSeek, fileRead, if_neg hpos,
      if_pos hoff.le]
    simp only [if_neg hne]
    simp [hlen]

/-- Calling `readNextBlock` with the cursor at or past `totalBlocks` is the
end-of-data case: it fails and leaves the state untouched. -/
theorem readNextBlock_atEnd (s : ReaderState) (f : OpenFile)
    (hf : s.currentFile = some f)
    (hk : (catEntry s s.currentIndex).totalBlocks ≤ s.currentBlock) :
    readNextBlock s = (s, none) := by
  simp [readNextBlock, hf, hk]

/-- One successful `readNextBlock` step: with a stream open on `content`
(at any in-range read position `q` — the helper seeks if necessary), a
consistent `totalBlocks`, and the cursor `c` still in range, the call
returns block `c` and advances the cursor. -/
theorem readNextBlock_step (s : ReaderState) (content : List Nat) (q c : Nat)
    (hf : s.currentFile = some ⟨content, q⟩)
    (hb : s.currentBlock = c)
    (htb : (catEntry s s.currentIndex).totalBlocks =
      (content.length + BLOCK_SIZE - 1) / BLOCK_SIZE)
    (hc : c < (content.length + BLOCK_SIZE - 1) / BLOCK_SIZE) :
    readNextBlock s =
      ({ s with
          currentFile := some ⟨content,
            c * BLOCK_SIZE + min BLOCK_SIZE (content.length - c * BLOCK_SIZE)⟩,
          currentBlock := c + 1 },
       some { data := (content.drop (c * BLOCK_SIZE)).take BLOCK_SIZE,
              length := min BLOCK_SIZE (content.length - c * BLOCK_SIZE),
              blockIndex := c,
              isLast := decide
                (c = (content.length + BLOCK_SIZE - 1) / BLOCK_SIZE - 1) }) := by
  have hclen : c * BLOCK_SIZE < content.length := (lt_ceil_iff c _).mp hc
  have hrao := readAtOffset_run content q (c * BLOCK_SIZE) c
    ((content.length + BLOCK_SIZE - 1) / BLOCK_SIZE) hclen
  simp only [readNextBlock, hf, htb, hb]
  rw [if_neg (by omega), hrao]

/-- A successful `openImage`: closes any previous stream, opens the
catalogued file at position 0 and resets the cursor. -/
theorem openImage_ok (fs : FS) (s : ReaderState) (i : Nat) (content : List Nat)
    (hm : s.mounted = true) (hi : i < imageCount s)
    (ho : fsOpen fs (catEntry s i).filename = some content) :
    openImage fs s i =
      ({ s with currentFile := some ⟨content, 0⟩,
                currentIndex := i, currentBlock := 0 }, true) := by
  have hcond : ¬ (¬ s.mounted = true ∨ imageCount s ≤ i) := by
    push_neg
    exact ⟨hm, by omega⟩
  simp only [openImage, if_neg hcond, ho]
  unfold closeImage
  by_cases hcf : s.currentFile.isSome
  · rw [if_pos hcf]
  · rw [if_neg hcf]

/-- Invariant of the sequential pass: with a stream open on `content`,
the cursor at `c ≤ totalBlocks`, and at least `totalBlocks - c` rounds of
fuel, `seqRun` collects exactly the remaining `totalBlocks - c` blocks,
whose lengths sum to the remaining byte count, and ends with the stream
still open, the cursor at `totalBlocks`, and index and catalogue
untouched. -/
theorem seqRun_run (n : Nat) :
    ∀ (s : ReaderState) (content : List Nat) (q c : Nat),
      s.currentFile = some ⟨content, q⟩ →
      s.currentBlock = c →
      (catEntry s s.currentIndex).totalBlocks =
        (content.length + BLOCK_SIZE - 1) / BLOCK_SIZE →
      c ≤ (content.length + BLOCK_SIZE - 1) / BLOCK_SIZE →
      (content.length + BLOCK_SIZE - 1) / BLOCK_SIZE - c ≤ n →
      (seqRun s n).1.length =
        (content.length + BLOCK_SIZE - 1) / BLOCK_SIZE - c ∧
      ((seqRun s n).1.map BlockReadResult.length).sum =
        content.length - c * BLOCK_SIZE ∧
      (∃ q2, (seqRun s n).2.currentFile = some ⟨content, q2⟩) ∧
      (seqRun s n).2.currentBlock =
        (content.length + BLOCK_SIZE - 1) / BLOCK_SIZE ∧
      (seqRun s n).2.currentIndex = s.currentIndex ∧
      (seqRun s n).2.catalogue = s.catalogue := by
  induction n with
  | zero =>
    intro s content q c hf hb htb hc hn
    have hceq : c = (content.length + BLOCK_SIZE - 1) / BLOCK_SIZE := by omega
    have hlen := len_le_ceil_mul content.length
    rw [← hceq] at hlen
    refine ⟨by simp [seqRun, hceq], ?_, ⟨q, by simpa [seqRun] using hf⟩,
      by simp [seqRun]; omega, by simp [seqRun], by simp [seqRun]⟩
    simp only [seqRun, List.map_nil, List.sum_nil]
    exact (Nat.sub_eq_zero_of_le hlen).symm
  | succ m ih =>
    intro s content q c hf hb htb hc hn
    by_cases hcend : c = (content.length + BLOCK_SIZE - 1) / BLOCK_SIZE
    · have heof : readNextBlock s = (s, none) :=
        readNextBlock_atEnd s _ hf (by rw [htb, hb]; omega)
      have hrun : seqRun s (m + 1) = ([], s) := by
        simp [seqRun, heof]
      rw [hrun]
      have hlen := len_le_ceil_mul content.length
      rw [← hcend] at hlen
      refine ⟨by simp [hcend], ?_, ⟨q, hf⟩, by rw [hb, hcend], rfl, rfl⟩
      simp only [List.map_nil, List.sum_nil]
      exact (Nat.sub_eq_zero_of_le hlen).symm
    · have hclt : c < (content.length + BLOCK_SIZE - 1) / BLOCK_SIZE :=
        lt_of_le_of_ne hc hcend
      have hclen : c * BLOCK_SIZE < content.length := (lt_ceil_iff c _).mp hclt
      have hstep := readNextBlock_step s content q c hf hb htb hclt
      have hih := ih { s with
          currentFile := some ⟨content,
            c * BLOCK_SIZE + min BLOCK_SIZE (content.length - c * BLOCK_SIZE)⟩,
          currentBlock := c + 1 } content
        (c * BLOCK_SIZE + min BLOCK_SIZE (content.length - c * BLOCK_SIZE))
        (c + 1) rfl rfl htb hclt (by omega)
      obtain ⟨hL, hS, hF, hB2, hI, hC⟩ := hih
      have hrun : seqRun s (m + 1) =
          ({ data := (content.drop (c * BLOCK_SIZE)).take BLOCK_SIZE,
             length := min BLOCK_SIZE (content.length - c * BLOCK_SIZE),
             blockIndex := c,
             isLast := decide
               (c = (content.length + BLOCK_SIZE - 1) / BLOCK_SIZE - 1) } ::
            (seqRun { s with
              currentFile := some ⟨content,
                c * BLOCK_SIZE +
                  min BLOCK_SIZE (content.length - c * BLOCK_SIZE)⟩,
              currentBlock := c + 1 } m).1,
           (seqRun { s with
              currentFile := some ⟨content,
                c * BLOCK_SIZE +
                  min BLOCK_SIZE (content.length - c * BLOCK_SIZE)⟩,
              currentBlock := c + 1 } m).2) := by
        simp [seqRun, hstep]
      rw [hrun]
      refine ⟨?_, ?_, hF, hB2, hI, hC⟩
      · simp only [List.length_cons, hL]
        omega
      · simp only [List.map_cons, List.sum_cons, hS]
        rw [Nat.succ_mul] at hS ⊢
        omega

/-! ### Claim C1: sequential read exhaustiveness -/

/-- Counterexample to claim C1 as stated: the scanned entry for the
FAT32-valid `2^32 - 1`-byte file `h.jpg` — with the underlying file
unchanged since the scan (`hugeContent.length = fileSize`) — is opened
successfully, yet the very first `readNextBlock` already signals
end-of-data (the catalogued `totalBlocks` wrapped to 0), so the sum of
the returned `length` values over the sequential pass is 0, not
`fileSize`. -/
theorem spec_C1_counterexample :
    (openImage fsHuge stHuge 0).2 = true ∧
    hugeContent.length = (catEntry stHuge 0).fileSize ∧
    0 < (catEntry stHuge 0).fileSize ∧
    (readNextBlock (openImage fsHuge stHuge 0).1).2 = none ∧
    ((seqRun (openImage fsHuge stHuge 0).1 1).1.map
        BlockReadResult.length).sum ≠ (catEntry stHuge 0).fileSize := by
  have htbE : hugeEntry.totalBlocks = 0 := by decide
  have ho : fsOpen fsHuge (catEntry stHuge 0).filename = some hugeContent :=
    rfl
  have hopen := openImage_ok fsHuge stHuge 0 hugeContent rfl (by decide) ho
  have hend : readNextBlock { stHuge with currentFile := some ⟨hugeContent, 0⟩, currentIndex := 0, currentBlock := 0 } =
      ({ stHuge with currentFile := some ⟨hugeContent, 0⟩, currentIndex := 0, currentBlock := 0 }, none) :=
    readNextBlock_atEnd _ ⟨hugeContent, 0⟩ rfl (le_of_eq htbE)
  have hlen : hugeContent.length = hugeSize := by
    simp [hugeContent]
  refine ⟨by rw [hopen], ?_, by decide, ?_, ?_⟩
  · rw [hlen]
    decide
  · rw [hopen, hend]
  · rw [hopen]
    have hseq : (seqRun { stHuge with currentFile := some ⟨hugeContent, 0⟩, currentIndex := 0, currentBlock := 0 } 1).1 = [] := by
      simp [seqRun, hend]
    rw [hseq]
    simp only [List.map_nil, List.sum_nil]
    decide

/-- Claim C1 as amended: after a successful `openImage i` on a catalogued
entry whose file is unchanged since the scan (the stored file has
`fileSize` bytes, and `totalBlocks` is the scan's 32-bit value
`((fileSize + BLOCK_SIZE - 1) mod 2^32) / BLOCK_SIZE`), and whose
block-count sum did not wrap (`fileSize + BLOCK_SIZE - 1 < 2^32`),
driving `readNextBlock` with any fuel of at least `totalBlocks` rounds
yields exactly `totalBlocks` successful results, the returned `length`
values sum exactly to `fileSize`, and the next `readNextBlock` call
signals end-of-data. -/
theorem spec_C1_sequential_exhaustive (fs : FS) (s : ReaderState)
    (i n : Nat) (content : List Nat)
    (hm : s.mounted = true) (hi : i < imageCount s)
    (ho : fsOpen fs (catEntry s i).filename = some content)
    (hsize : (catEntry s i).fileSize = content.length)
    (hwrap : content.length + BLOCK_SIZE - 1 < UINT32_MOD)
    (htb : (catEntry s i).totalBlocks =
      ((content.length + BLOCK_SIZE - 1) % UINT32_MOD) / BLOCK_SIZE)
    (hn : (catEntry s i).totalBlocks ≤ n) :
    (openImage fs s i).2 = true ∧
    (seqRun (openImage fs s i).1 n).1.length = (catEntry s i).totalBlocks ∧
    ((seqRun (openImage fs s i).1 n).1.map BlockReadResult.length).sum =
      (catEntry s i).fileSize ∧
    (readNextBlock (seqRun (openImage fs s i).1 n).2).2 = none := by
  rw [Nat.mod_eq_of_lt hwrap] at htb
  have hopen := openImage_ok fs s i content hm hi ho
  rw [hopen]
  set s1 : ReaderState :=
    { s with currentFile := some ⟨content, 0⟩,
             currentIndex := i, currentBlock := 0 } with hs1
  obtain ⟨hL, hS, ⟨q2, hF⟩, hB2, hI, hC⟩ :=
    seqRun_run n s1 content 0 0 rfl rfl htb (by omega) (by omega)
  have hcat2 : catEntry (seqRun s1 n).2 (seqRun s1 n).2.currentIndex =
      catEntry s i := by
    unfold catEntry
    rw [hC, hI]
  refine ⟨rfl, by rw [hL, htb, Nat.sub_zero], ?_, ?_⟩
  · rw [hS, hsize]
    simp
  · rw [readNextBlock_atEnd (seqRun s1 n).2 ⟨content, q2⟩ hF
      (by rw [hcat2, htb, hB2])]

/-- Witness for C1 (amended): streaming the catalogued 3-byte file
`/images/a.jpg` (one block, no 32-bit wrap) yields exactly one block
whose length sums to 3, then end-of-data. -/
theorem spec_C1_witness :
    (openImage fsA stMounted 0).2 = true ∧
    (seqRun (openImage fsA stMounted 0).1 1).1.length =
      (catEntry stMounted 0).totalBlocks ∧
    ((seqRun (openImage fsA stMounted 0).1 1).1.map
        BlockReadResult.length).sum = (catEntry stMounted 0).fileSize ∧
    (readNextBlock (seqRun (openImage fsA stMounted 0).1 1).2).2 = none :=
  spec_C1_sequential_exhaustive fsA stMounted 0 1 [1, 2, 3] rfl (by decide)
    (by decide) (by decide) (by decide) (by decide) (by decide)

/-! ### Claim C2: random access equivalence and cursor framing -/

/-- Running `readBlock` on an in-range index: seeks to the block's offset, reads
it, and returns with only the file position changed. -/
theorem readBlock_run (s : ReaderState) (content : List Nat) (q k : Nat)
    (hf : s.currentFile = some ⟨content, q⟩)
    (htb : (catEntry s s.currentIndex).totalBlocks =
      (content.length + BLOCK_SIZE - 1) / BLOCK_SIZE)
    (hk : k < (content.length + BLOCK_SIZE - 1) / BLOCK_SIZE) :
    readBlock s k =
      ({ s with currentFile := some ⟨content,
          k * BLOCK_SIZE + min BLOCK_SIZE (content.length - k * BLOCK_SIZE)⟩ },
       some { data := (content.drop (k * BLOCK_SIZE)).take BLOCK_SIZE,
              length := min BLOCK_SIZE (content.length - k * BLOCK_SIZE),
              blockIndex := k,
              isLast := decide
                (k = (content.length + BLOCK_SIZE - 1) / BLOCK_SIZE - 1) }) := by
  have hklen : k * BLOCK_SIZE < content.length := (lt_ceil_iff k _).mp hk
  have hrao := readAtOffset_run content (k * BLOCK_SIZE) (k * BLOCK_SIZE) k
    ((content.length + BLOCK_SIZE - 1) / BLOCK_SIZE) hklen
  simp only [readBlock, hf, htb]
  rw [if_neg (by omega)]
  simp only [fileSeek]
  rw [if_pos hklen.le]
  simp [hrao]

/-- Claim C2: with a stream open (cursor at any in-range `c`), for any
`k < totalBlocks`, `readBlock k` succeeds and returns exactly the result
that `readNextBlock` returns (or returned) when its cursor is at `k`
(byte-identical `data`, same `length`, `blockIndex` and `isLast`); it
leaves the sequential cursor, active index and catalogue untouched; and a
subsequent `readNextBlock` returns exactly what it would have returned
had `readBlock` not been called. -/
theorem spec_C2_random_access_frame (s : ReaderState) (content : List Nat)
    (q c k : Nat)
    (hf : s.currentFile = some ⟨content, q⟩)
    (hb : s.currentBlock = c)
    (htb : (catEntry s s.currentIndex).totalBlocks =
      (content.length + BLOCK_SIZE - 1) / BLOCK_SIZE)
    (hc : c ≤ (content.length + BLOCK_SIZE - 1) / BLOCK_SIZE)
    (hk : k < (content.length + BLOCK_SIZE - 1) / BLOCK_SIZE) :
    (readBlock s k).2 =
      (readNextBlock { s with currentBlock := k, currentFile := some ⟨content, min (k * BLOCK_SIZE) content.length⟩ }).2 ∧
    (readBlock s k).2 =
      some { data := (content.drop (k * BLOCK_SIZE)).take BLOCK_SIZE,
             length := min BLOCK_SIZE (content.length - k * BLOCK_SIZE),
             blockIndex := k,
             isLast := decide
               (k = (content.length + BLOCK_SIZE - 1) / BLOCK_SIZE - 1) } ∧
    (readBlock s k).1.currentBlock = s.currentBlock ∧
    (readBlock s k).1.currentIndex = s.currentIndex ∧
    (readBlock s k).1.catalogue = s.catalogue ∧
    (readNextBlock (readBlock s k).1).2 = (readNextBlock s).2 := by
  have hrb := readBlock_run s content q k hf htb hk
  have hstepk := readNextBlock_step
    { s with currentBlock := k, currentFile := some ⟨content, min (k * BLOCK_SIZE) content.length⟩ }
    content (min (k * BLOCK_SIZE) content.length) k rfl rfl htb hk
  rw [hrb, hstepk]
  refine ⟨rfl, rfl, rfl, rfl, rfl, ?_⟩
  by_cases hcend : c = (content.length + BLOCK_SIZE - 1) / BLOCK_SIZE
  · rw [readNextBlock_atEnd
      { s with currentFile := some ⟨content, k * BLOCK_SIZE + min BLOCK_SIZE (content.length - k * BLOCK_SIZE)⟩ }
      ⟨content, k * BLOCK_SIZE + min BLOCK_SIZE (content.length - k * BLOCK_SIZE)⟩
      rfl (by show (catEntry s s.currentIndex).totalBlocks ≤ s.currentBlock
              rw [htb, hb, hcend])]
    rw [readNextBlock_atEnd s ⟨content, q⟩ hf
      (by show (catEntry s s.currentIndex).totalBlocks ≤ s.currentBlock
          rw [htb, hb, hcend])]
  · have hclt : c < (content.length + BLOCK_SIZE - 1) / BLOCK_SIZE :=
      lt_of_le_of_ne hc hcend
    rw [readNextBlock_step
      { s with currentFile := some ⟨content, k * BLOCK_SIZE + min BLOCK_SIZE (content.length - k * BLOCK_SIZE)⟩ }
      content (k * BLOCK_SIZE + min BLOCK_SIZE (content.length - k * BLOCK_SIZE))
      c rfl hb htb hclt]
    rw [readNextBlock_step s content q c hf hb htb hclt]

/-- Witness for C2: on the open one-block stream `stOpen`, `readBlock 0`
agrees with the sequential read of block 0 and leaves the cursor alone. -/
theorem spec_C2_witness :
    (readBlock stOpen 0).2 =
      (readNextBlock { stOpen with currentBlock := 0, currentFile := some ⟨[1, 2, 3], min (0 * BLOCK_SIZE) [1, 2, 3].length⟩ }).2 ∧
    (readBlock stOpen 0).2 =
      some { data := ([1, 2, 3].drop (0 * BLOCK_SIZE)).take BLOCK_SIZE,
             length := min BLOCK_SIZE ([1, 2, 3].length - 0 * BLOCK_SIZE),
             blockIndex := 0,
             isLast := decide
               (0 = ([1, 2, 3].length + BLOCK_SIZE - 1) / BLOCK_SIZE - 1) } ∧
    (readBlock stOpen 0).1.currentBlock = stOpen.currentBlock ∧
    (readBlock stOpen 0).1.currentIndex = stOpen.currentIndex ∧
    (readBlock stOpen 0).1.catalogue = stOpen.catalogue ∧
    (readNextBlock (readBlock stOpen 0).1).2 = (readNextBlock stOpen).2 :=
  spec_C2_random_access_frame stOpen [1, 2, 3] 0 0 0 rfl rfl (by decide)
    (by decide) (by decide)
